import Mathlib

/-!
Verification of the session lifecycle / isolation manager and the tiered
file-ingestion pipeline of the `data_summary_api` repository.

The Python sources are shallowly embedded:
* Python dicts become association lists `List (String × β)` with
  insert-or-replace (`dictInsert`), delete (`dictErase`) and first-match
  lookup (`dlookup`) mirroring dict semantics (replacement keeps the
  position of the key, a fresh key is appended at the end).
* `SessionSecurity` (src/app/utils/session_security.py) becomes a pure
  state-passing `Store`; wall-clock reads `datetime.now(timezone.utc)`
  become an explicit `now : Int` argument (seconds).
* the pandas calls of src/app/handlers/file_parser.py and
  large_file_processor.py are oracle parameters (`CsvOracle`): the
  embedding keeps the control flow of the repository code and leaves the
  external library behavior abstract.
-/

namespace DataSummary

/-! ## Dict helpers (Python dict / list semantics) -/

/-- First-match lookup in an association list (Python `d[k]` / `k in d`). -/
def dlookup {β : Type} (k : String) : List (String × β) → Option β
  | [] => none
  | p :: rest => if p.1 = k then some p.2 else dlookup k rest

/-- Python `d[k] = v`: replace the first binding of `k` in place, else append. -/
def dictInsert {β : Type} (k : String) (v : β) : List (String × β) → List (String × β)
  | [] => [(k, v)]
  | p :: rest => if p.1 = k then (k, v) :: rest else p :: dictInsert k v rest

/-- Python `del d[k]`: drop the first binding of `k`. -/
def dictErase {β : Type} (k : String) : List (String × β) → List (String × β)
  | [] => []
  | p :: rest => if p.1 = k then rest else p :: dictErase k rest

/-- Python `lst.remove(x)` with the `ValueError` swallowed: drop the first
occurrence of `x`, or leave the list unchanged when `x` is absent. -/
def removeFirst (x : String) : List String → List String
  | [] => []
  | y :: rest => if y = x then rest else y :: removeFirst x rest

/-! ## Session records (src/app/utils/session_security.py) -/

/-- A session record, the dict built by `SessionSecurity.create_session`.
The parsed table (`df`) is held as an opaque handle; timestamps are
seconds as integers.  Keys that routes may add beyond the ones set at
creation (`memory_estimate`, `data_types_summary`, ...) live in `extra`. -/
structure SessionData where
  session_id : String
  client_ip : String
  filename : String
  filetype : String
  created_time : Int
  last_access_time : Int
  df : Option Nat
  row_count : Int
  column_count : Int
  extra : List (String × String)
  deriving DecidableEq, Repr

/-- One `session[key] = value` assignment, as performed by the
`for key, value in updates.items()` loop of `update_session`. -/
inductive FieldUpdate where
  | set_session_id (v : String)
  | set_client_ip (v : String)
  | set_filename (v : String)
  | set_filetype (v : String)
  | set_created_time (v : Int)
  | set_last_access_time (v : Int)
  | set_df (v : Option Nat)
  | set_row_count (v : Int)
  | set_column_count (v : Int)
  | set_extra (k : String) (v : String)
  deriving DecidableEq, Repr

/-- Apply one keyword assignment to a record (`session[key] = value`). -/
def applyUpdate (s : SessionData) : FieldUpdate → SessionData
  | .set_session_id v => { s with session_id := v }
  | .set_client_ip v => { s with client_ip := v }
  | .set_filename v => { s with filename := v }
  | .set_filetype v => { s with filetype := v }
  | .set_created_time v => { s with created_time := v }
  | .set_last_access_time v => { s with last_access_time := v }
  | .set_df v => { s with df := v }
  | .set_row_count v => { s with row_count := v }
  | .set_column_count v => { s with column_count := v }
  | .set_extra k v => { s with extra := dictInsert k v s.extra }

/-- The state of a `SessionSecurity` instance: `sessions` maps session id
to record, `client_sessions` maps client ip to its list of session ids. -/
structure Store where
  sessions : List (String × SessionData)
  client_sessions : List (String × List String)
  deriving DecidableEq, Repr

/-- `SessionSecurity.create_session`.  The `secrets.token_urlsafe(32)`
identity is an input (`sid`), the two `datetime.now` reads are `now`. -/
def create_session (s : Store) (sid client_ip filename filetype : String)
    (now : Int) : String × Store :=
  let sess : SessionData :=
    { session_id := sid, client_ip := client_ip, filename := filename,
      filetype := filetype, created_time := now, last_access_time := now,
      df := none, row_count := 0, column_count := 0, extra := [] }
  let cs :=
    match dlookup client_ip s.client_sessions with
    | none => dictInsert client_ip [sid] s.client_sessions
    | some l => dictInsert client_ip (l ++ [sid]) s.client_sessions
  (sid, { sessions := dictInsert sid sess s.sessions, client_sessions := cs })

/-- `SessionSecurity.get_session`: returns the record only when it exists
and is owned by `client_ip`; on success refreshes `last_access_time`
(an in-place mutation of the stored dict, hence the returned store). -/
def get_session (s : Store) (session_id client_ip : String) (now : Int) :
    Option SessionData × Store :=
  match dlookup session_id s.sessions with
  | none => (none, s)
  | some sess =>
    if sess.client_ip ≠ client_ip then (none, s)
    else
      let sess2 := { sess with last_access_time := now }
      (some sess2, { s with sessions := dictInsert session_id sess2 s.sessions })

/-- `SessionSecurity.update_session`: authorize via `get_session`, then
apply the keyword assignments in order to the stored record. -/
def update_session (s : Store) (session_id client_ip : String)
    (updates : List FieldUpdate) (now : Int) : Bool × Store :=
  match get_session s session_id client_ip now with
  | (none, s2) => (false, s2)
  | (some sess, s2) =>
    let sess2 := updates.foldl applyUpdate sess
    (true, { s2 with sessions := dictInsert session_id sess2 s2.sessions })

/-- `SessionSecurity.delete_session`: authorize via `get_session`, remove
the record from the table and the id from the owner's index. -/
def delete_session (s : Store) (session_id client_ip : String) (now : Int) :
    Bool × Store :=
  match get_session s session_id client_ip now with
  | (none, s2) => (false, s2)
  | (some _, s2) =>
    let sessions2 := dictErase session_id s2.sessions
    let cs2 :=
      match dlookup client_ip s2.client_sessions with
      | none => s2.client_sessions
      | some l => dictInsert client_ip (removeFirst session_id l) s2.client_sessions
    (true, { sessions := sessions2, client_sessions := cs2 })

/-- Removal of one expired session inside `cleanup_expired_sessions`:
drop the id from the owner's index, then delete the record. -/
def cleanupStep (st : Store) (session_id : String) : Store :=
  match dlookup session_id st.sessions with
  | none => st
  | some sess =>
    let cip := sess.client_ip
    let cs2 :=
      match dlookup cip st.client_sessions with
      | none => st.client_sessions
      | some l => dictInsert cip (removeFirst session_id l) st.client_sessions
    { sessions := dictErase session_id st.sessions, client_sessions := cs2 }

/-- The expiry predicate of the sweep:
`(now - session[last_access_time]).total_seconds() > expiry_seconds`. -/
def isExpired (now expiry_seconds : Int) (sess : SessionData) : Bool :=
  now - sess.last_access_time > expiry_seconds

/-- `SessionSecurity.cleanup_expired_sessions`: collect the expired ids
from a snapshot of the table, then remove them one by one. -/
def cleanup_expired_sessions (s : Store) (expiry_seconds : Int) (now : Int) :
    Store :=
  let expired := (s.sessions.filter (fun p => isExpired now expiry_seconds p.2)).map (fun p => p.1)
  expired.foldl cleanupStep s

/-! ## String helpers (Python str methods, as structural recursion) -/

/-- Prefix test on character lists. -/
def listStartsWith : List Char → List Char → Bool
  | _, [] => true
  | [], _ :: _ => false
  | c :: cs, p :: ps => c = p && listStartsWith cs ps

/-- Python `s.startswith(pre)` (case-sensitive). -/
def strStartsWith (s pre : String) : Bool :=
  listStartsWith s.data pre.data

/-- Python `s.endswith(suffix)`. -/
def strEndsWith (s suffix : String) : Bool :=
  listStartsWith s.data.reverse suffix.data.reverse

/-- Python `s.lower()` (ASCII, which covers the extensions involved). -/
def strToLower (s : String) : String :=
  ⟨s.data.map Char.toLower⟩

/-! ## DataFrames and structural validation
(src/app/utils/data_validation.py, src/app/handlers/file_parser.py) -/

/-- The shape of a parsed pandas DataFrame as far as the repository code
inspects it: its column labels and its number of rows.  `df.shape` is
`(nrows, columns.length)`; `df.empty` holds when either axis is zero. -/
structure DataFrame where
  columns : List String
  nrows : Nat
  deriving DecidableEq, Repr, Inhabited

/-- Pandas `df.empty`. -/
def DataFrame.empty (d : DataFrame) : Bool :=
  d.nrows = 0 || d.columns.length = 0

/-- `validate_dataframe` (src/app/utils/data_validation.py): the raised
`HTTPException` becomes `Except.error` carrying the `detail` string.
The header check is the literal `str(c).startswith("unnamed")` of the
source: case-sensitive, lowercase needle. -/
def validate_dataframe (df : Option DataFrame) (min_rows : Nat := 1)
    (max_rows : Nat := 1000000) (min_cols : Nat := 1) (max_cols : Nat := 500) :
    Except String Unit :=
  match df with
  | none => .error "Uploaded file is empty."
  | some d =>
    if d.empty then .error "Uploaded file is empty."
    else
      let rows := d.nrows
      let cols := d.columns.length
      if rows < min_rows || cols < min_cols then
        .error "File must have at least the minimum rows and columns."
      else if rows > max_rows then
        .error "File exceeds maximum allowed rows."
      else if cols > max_cols then
        .error "File exceeds maximum allowed columns."
      else if d.columns.any (fun c => strStartsWith c "unnamed") then
        .error "File Appears to have missing or invalid headers."
      else .ok ()

/-- The typed failures of src/app/utils/custom_exceptions.py that the
ingestion entry points raise. -/
inductive IngestError where
  | fileReadError (filename filetype message : String)
  | dataFrameValidationError (detail : String) (row_count col_count : Nat)
      (min_rows max_rows min_cols max_cols : Nat)
  deriving DecidableEq, Repr

/-- The pandas / chardet calls the ingestion code makes, left abstract.
`readCsv enc lossy` is `pd.read_csv(BytesIO(contents), encoding=enc)`
(`lossy = true` adds the `errors=replace` argument of the final
attempt); `readNRows enc n` adds `nrows=n`; `readChunked enc cs` is the
`chunksize=cs` iterator, as the list of chunk frames it would yield;
`readExcel` is `pd.read_excel`; `detectedEncoding`/`detectedConfidence`
are `chardet.detect(contents)`; `estimatedRows` is the arithmetic
estimate `_count_csv_rows` computes from the raw bytes. -/
structure CsvOracle where
  readCsv : String → Bool → Except String DataFrame
  readNRows : String → Nat → Except String DataFrame
  readChunked : String → Nat → Except String (List DataFrame)
  readExcel : Except String DataFrame
  detectedEncoding : String
  detectedConfidence : Rat
  estimatedRows : Nat

/-- The ordered fallback list `common_encodings` of
`_parse_csv_with_encoding`. -/
def common_encodings : List String :=
  ["utf-8", "latin-1", "iso-8859-1", "cp1252", "utf-16"]

/-- The `for enc in common_encodings` loop: first encoding under which
`readCsv` succeeds, with its frame. -/
def tryEncodings (readCsv : String → Bool → Except String DataFrame) :
    List String → Option (DataFrame × String)
  | [] => none
  | enc :: rest =>
    match readCsv enc false with
    | .ok df => some (df, enc)
    | .error _ => tryEncodings readCsv rest

/-- `_parse_csv_with_encoding` (src/app/handlers/file_parser.py):
explicit encoding is used verbatim or fails hard; otherwise the
detected encoding is tried when confidence exceeds 0.7, then the
fallback list, then one lossy utf-8 attempt. -/
def parse_csv_with_encoding (io : CsvOracle) (encoding : Option String) :
    Except String (DataFrame × String) :=
  match encoding with
  | some enc =>
    match io.readCsv enc false with
    | .ok df => .ok (df, enc)
    | .error e => .error ("Failed to parse with specified encoding " ++ enc ++ ": " ++ e)
  | none =>
    match (if io.detectedConfidence > (7 : Rat) / 10 then
        match io.readCsv io.detectedEncoding false with
        | .ok df => some (df, io.detectedEncoding)
        | .error _ => none
      else none) with
    | some r => .ok r
    | none =>
      match tryEncodings io.readCsv common_encodings with
      | some r => .ok r
      | none =>
        match io.readCsv "utf-8" true with
        | .ok df => .ok (df, "utf-8")
        | .error e => .error ("Failed to parse CSV with any encoding. Last error: " ++ e)

/-- `filename.lower().endswith(".csv")`. -/
def isCsvName (filename : String) : Bool :=
  strEndsWith (strToLower filename) ".csv"

/-- `parse_file_contents` (src/app/handlers/file_parser.py): parse by
extension, then validate; a validation failure is rewrapped into
`DataFrameValidationError` carrying the measured shape and the bounds. -/
def parse_file_contents (io : CsvOracle) (filename : String)
    (encoding : Option String := none) :
    Except IngestError (DataFrame × String) :=
  let parsed : Except IngestError (DataFrame × String) :=
    if isCsvName filename then
      match parse_csv_with_encoding io encoding with
      | .ok (df, _) => .ok (df, "CSV")
      | .error e => .error (.fileReadError filename "CSV" e)
    else
      match io.readExcel with
      | .ok df => .ok (df, "XLSX")
      | .error e => .error (.fileReadError filename "XLSX" e)
  match parsed with
  | .error e => .error e
  | .ok (df, filetype) =>
    match validate_dataframe (some df) with
    | .ok _ => .ok (df, filetype)
    | .error detail =>
      let shape := if df.empty then (0, 0) else (df.nrows, df.columns.length)
      .error (.dataFrameValidationError detail shape.1 shape.2 1 1000000 1 500)

/-! ## Large-file processing (src/app/handlers/large_file_processor.py) -/

/-- A value stored in the `metadata` dict of `parse_large_file`. -/
inductive MValue where
  | nat (n : Nat)
  | bool (b : Bool)
  | str (s : String)
  | pynone
  deriving DecidableEq, Repr

/-- The metadata dict. -/
abbrev Metadata := List (String × MValue)

/-- Python `dict.update`: assign every pair of the second dict into the
first, in order. -/
def dictUpdate (base : Metadata) (upd : Metadata) : Metadata :=
  upd.foldl (fun d p => dictInsert p.1 p.2 d) base

/-- The accumulation loop of `_read_csv_in_chunks`: append the chunk,
then break as soon as `len(chunks) > 100`. -/
def collectChunks (acc : List DataFrame) : List DataFrame → List DataFrame
  | [] => acc
  | c :: rest =>
    let acc2 := acc ++ [c]
    if acc2.length > 100 then acc2 else collectChunks acc2 rest

/-- `pd.concat(chunks, ignore_index=True)` at the level of detail the
claims need: columns of the first chunk, row counts added up. -/
def concatFrames (chunks : List DataFrame) : DataFrame :=
  { columns := (chunks.headI).columns
    nrows := (chunks.map (fun c => c.nrows)).sum }

/-- `_read_csv_in_chunks`: iterate the `chunksize` reader, keeping at
most the chunks the loop collects before its cap breaks it, and
concatenate; an empty iterator yields an empty `DataFrame()`. -/
def read_csv_in_chunks (io : CsvOracle) (chunk_size : Nat) (encoding : String) :
    Except String DataFrame :=
  match io.readChunked encoding chunk_size with
  | .error e => .error ("Failed to read CSV in chunks: " ++ e)
  | .ok allChunks =>
    let kept := collectChunks [] allChunks
    match kept with
    | [] => .ok { columns := [], nrows := 0 }
    | _ => .ok (concatFrames kept)

/-- Python truthiness of the `sample_rows` optional int: `if sample_rows:`
is false both for `None` and for `0`. -/
def sampleTruthy : Option Nat → Bool
  | none => false
  | some n => n ≠ 0

/-- The encoding `_parse_large_csv` works with: the explicit one when
given, else the one statistical detection produced
(`if not encoding: encoding = detect_file_encoding(contents)`). -/
def effEncoding (io : CsvOracle) (encoding : Option String) : String :=
  match encoding with
  | some e => e
  | none => io.detectedEncoding

/-- `_parse_large_csv`: resolve the encoding when absent, short-circuit
into an `nrows=` read when `sample_rows` is truthy, otherwise decide
between a one-pass parse and a chunked read from the cheap row
estimate. -/
def parse_large_csv (io : CsvOracle) (chunk_size : Nat)
    (sample_rows : Option Nat) (encoding : Option String) :
    Except String (DataFrame × String × Metadata) :=
  if sampleTruthy sample_rows then
    match io.readNRows (effEncoding io encoding) (sample_rows.getD 0) with
    | .ok df =>
      .ok (df, "CSV",
        [("encoding", .str (effEncoding io encoding)), ("total_rows", .nat df.nrows),
         ("is_sampled", .bool true), ("sample_size", .nat (sample_rows.getD 0))])
    | .error e => .error ("Failed to sample CSV: " ++ e)
  else
    if io.estimatedRows ≤ chunk_size then
      match parse_csv_with_encoding io (some (effEncoding io encoding)) with
      | .ok (df, detected) =>
        .ok (df, "CSV",
          [("encoding", .str detected), ("total_rows", .nat io.estimatedRows),
           ("is_chunked", .bool false)])
      | .error e => .error ("Failed to parse large CSV: " ++ e)
    else
      match read_csv_in_chunks io chunk_size (effEncoding io encoding) with
      | .ok df =>
        .ok (df, "CSV",
          [("encoding", .str (effEncoding io encoding)), ("total_rows", .nat io.estimatedRows),
           ("is_chunked", .bool true), ("chunk_size", .nat chunk_size)])
      | .error e => .error ("Failed to parse large CSV: " ++ e)

/-- The base `metadata` dict `parse_large_file` builds before dispatching
(`is_sampled` here is `sample_rows is not None`, unlike the truthiness
test inside `_parse_large_csv`). -/
def baseMetadata (chunk_size : Nat) (sample_rows : Option Nat) : Metadata :=
  [("chunk_size", .nat chunk_size),
   ("sample_rows", match sample_rows with | some n => .nat n | none => .pynone),
   ("is_sampled", .bool (sample_rows ≠ none))]

/-- `parse_large_file`: build the base metadata, dispatch on the file
extension, and merge the per-format metadata over the base dict. -/
def parse_large_file (io : CsvOracle) (filename : String)
    (chunk_size : Nat := 10000) (sample_rows : Option Nat := none)
    (encoding : Option String := none) :
    Except IngestError (DataFrame × String × Metadata) :=
  if isCsvName filename then
    match parse_large_csv io chunk_size sample_rows encoding with
    | .ok (df, filetype, fmd) =>
      .ok (df, filetype, dictUpdate (baseMetadata chunk_size sample_rows) fmd)
    | .error e => .error (.fileReadError filename "CSV" e)
  else
    match io.readExcel with
    | .ok df =>
      .ok (df, "XLSX",
        dictInsert "total_rows" (.nat df.nrows) (baseMetadata chunk_size sample_rows))
    | .error e => .error (.fileReadError filename "XLSX" e)

/-! ## Dictionary lemmas -/

theorem dlookup_dictInsert_self {β : Type} (k : String) (v : β) (l : List (String × β)) :
    dlookup k (dictInsert k v l) = some v := by
  induction l with
  | nil => simp [dictInsert, dlookup]
  | cons p rest ih =>
    by_cases h : p.1 = k
    · simp [dictInsert, dlookup, h]
    · simp [dictInsert, dlookup, h, ih]

theorem dlookup_dictInsert_ne {β : Type} (k k2 : String) (v : β) (l : List (String × β))
    (h : k2 ≠ k) : dlookup k2 (dictInsert k v l) = dlookup k2 l := by
  induction l with
  | nil => simp [dictInsert, dlookup, Ne.symm h]
  | cons p rest ih =>
    obtain ⟨a, b⟩ := p
    by_cases hp : a = k
    · have hak2 : ¬a = k2 := by rw [hp]; exact Ne.symm h
      simp only [dictInsert, if_pos hp, dlookup, if_neg (Ne.symm h), if_neg hak2]
    · simp only [dictInsert, if_neg hp, dlookup]
      by_cases hq : a = k2
      · simp [hq]
      · simp [hq, ih]

theorem mem_dictInsert {β : Type} (k : String) (v : β) (l : List (String × β))
    (p : String × β) (h : p ∈ dictInsert k v l) : p = (k, v) ∨ p ∈ l := by
  induction l with
  | nil => simpa [dictInsert] using h
  | cons q rest ih =>
    by_cases hq : q.1 = k
    · simp only [dictInsert, if_pos hq, List.mem_cons] at h
      rcases h with h | h
      · exact Or.inl h
      · exact Or.inr (List.mem_cons_of_mem _ h)
    · simp only [dictInsert, if_neg hq, List.mem_cons] at h
      rcases h with h | h
      · exact Or.inr (h ▸ List.mem_cons_self _ _)
      · rcases ih h with h2 | h2
        · exact Or.inl h2
        · exact Or.inr (List.mem_cons_of_mem _ h2)

theorem dictErase_sublist {β : Type} (k : String) (l : List (String × β)) :
    (dictErase k l).Sublist l := by
  induction l with
  | nil => simp [dictErase]
  | cons p rest ih =>
    by_cases hp : p.1 = k
    · rw [dictErase, if_pos hp]
      exact List.sublist_cons_self p rest
    · rw [dictErase, if_neg hp]
      exact List.Sublist.cons₂ p ih

theorem dlookup_dictErase_ne {β : Type} (k k2 : String) (l : List (String × β))
    (h : k2 ≠ k) : dlookup k2 (dictErase k l) = dlookup k2 l := by
  induction l with
  | nil => simp [dictErase]
  | cons p rest ih =>
    obtain ⟨a, b⟩ := p
    by_cases hp : a = k
    · have hak2 : ¬a = k2 := by rw [hp]; exact Ne.symm h
      simp only [dictErase, if_pos hp, dlookup, if_neg hak2]
    · simp only [dictErase, if_neg hp, dlookup]
      by_cases hq : a = k2
      · simp [hq]
      · simp [hq, ih]

theorem dlookup_eq_none_of_not_mem {β : Type} (k : String) (l : List (String × β))
    (h : k ∉ l.map Prod.fst) : dlookup k l = none := by
  induction l with
  | nil => simp [dlookup]
  | cons p rest ih =>
    obtain ⟨a, b⟩ := p
    simp only [List.map_cons, List.mem_cons] at h
    push_neg at h
    have hak : ¬a = k := fun t => h.1 t.symm
    simp only [dlookup, if_neg hak]
    exact ih h.2

theorem dlookup_dictErase_self {β : Type} (k : String) (l : List (String × β))
    (hnd : (l.map Prod.fst).Nodup) : dlookup k (dictErase k l) = none := by
  induction l with
  | nil => simp [dictErase, dlookup]
  | cons p rest ih =>
    simp only [List.map_cons, List.nodup_cons] at hnd
    obtain ⟨a, b⟩ := p
    by_cases hp : a = k
    · simp only [dictErase, if_pos hp]
      exact dlookup_eq_none_of_not_mem k rest (hp ▸ hnd.1)
    · simp only [dictErase, if_neg hp, dlookup, if_neg hp]
      exact ih hnd.2

theorem dlookup_mem {β : Type} (k : String) (v : β) (l : List (String × β))
    (h : dlookup k l = some v) : (k, v) ∈ l := by
  induction l with
  | nil => simp [dlookup] at h
  | cons p rest ih =>
    obtain ⟨a, b⟩ := p
    by_cases hp : a = k
    · simp only [dlookup, if_pos hp] at h
      injection h with h2
      subst hp
      subst h2
      exact List.mem_cons_self _ _
    · simp only [dlookup, if_neg hp] at h
      exact List.mem_cons_of_mem _ (ih h)

theorem nodup_mem_dlookup {β : Type} (k : String) (v : β) (l : List (String × β))
    (hnd : (l.map Prod.fst).Nodup) (h : (k, v) ∈ l) : dlookup k l = some v := by
  induction l with
  | nil => simp at h
  | cons p rest ih =>
    simp only [List.map_cons, List.nodup_cons] at hnd
    rcases List.mem_cons.mp h with h1 | h1
    · simp [dlookup, ← h1]
    · have hp : p.1 ≠ k := by
        intro hpk
        exact hnd.1 (hpk ▸ List.mem_map.mpr ⟨(k, v), h1, rfl⟩ : p.1 ∈ rest.map Prod.fst)
      simp only [dlookup, if_neg hp]
      exact ih hnd.2 h1

theorem removeFirst_sublist (x : String) (l : List String) :
    (removeFirst x l).Sublist l := by
  induction l with
  | nil => simp [removeFirst]
  | cons y rest ih =>
    by_cases hy : y = x
    · rw [removeFirst, if_pos hy]
      exact List.sublist_cons_self y rest
    · rw [removeFirst, if_neg hy]
      exact List.Sublist.cons₂ y ih

theorem not_mem_removeFirst (x : String) (l : List String) (hl : l.Nodup) :
    x ∉ removeFirst x l := by
  induction l with
  | nil => simp [removeFirst]
  | cons y rest ih =>
    simp only [List.nodup_cons] at hl
    by_cases hy : y = x
    · simpa [removeFirst, hy] using hy ▸ hl.1
    · simp only [removeFirst, if_neg hy, List.mem_cons]
      rintro (h | h)
      · exact hy h.symm
      · exact ih hl.2 h

theorem mem_removeFirst_of_mem (x y : String) (l : List String)
    (h : y ∈ removeFirst x l) : y ∈ l :=
  (removeFirst_sublist x l).mem h

/-! ## A concrete store for witnesses -/

/-- The record `create_session` builds for client `alice` at time 0. -/
def demoRecord : SessionData :=
  { session_id := "sid1", client_ip := "alice", filename := "data.csv",
    filetype := "CSV", created_time := 0, last_access_time := 0,
    df := none, row_count := 0, column_count := 0, extra := [] }

/-- A store holding exactly one session, owned by `alice`. -/
def demoStore : Store :=
  { sessions := [("sid1", demoRecord)], client_sessions := [("alice", ["sid1"])] }

/-! ## Session claims -/

/-- Equation: `get_session` on an absent session id. -/
theorem get_session_eq_absent (s : Store) (sid cip : String) (now : Int)
    (h : dlookup sid s.sessions = none) :
    get_session s sid cip now = (none, s) := by
  unfold get_session
  rw [h]

/-- Equation: `get_session` by a non-owner. -/
theorem get_session_eq_wrong_owner (s : Store) (sid cip : String) (now : Int)
    (sess : SessionData) (h : dlookup sid s.sessions = some sess)
    (hc : sess.client_ip ≠ cip) :
    get_session s sid cip now = (none, s) := by
  unfold get_session
  rw [h]
  exact if_pos hc

/-- Equation: `get_session` by the owner refreshes `last_access_time`. -/
theorem get_session_eq_owner (s : Store) (sid cip : String) (now : Int)
    (sess : SessionData) (h : dlookup sid s.sessions = some sess)
    (hc : sess.client_ip = cip) :
    get_session s sid cip now =
      (some { sess with last_access_time := now },
       { s with sessions := dictInsert sid { sess with last_access_time := now } s.sessions }) := by
  unfold get_session
  rw [h]
  exact if_neg (by simp [hc])

/-- C1: `get_session` returns a record exactly when the session exists and
its owning client equals the requester; any returned record is owned by
the requester; in every other case (absent session, or owned by a
different client) the result is the same not-found outcome `none`. -/
theorem get_session_isolation (s : Store) (sid cip : String) (now : Int) :
    ((get_session s sid cip now).1 ≠ none ↔
      ∃ sess, dlookup sid s.sessions = some sess ∧ sess.client_ip = cip) ∧
    (∀ r, (get_session s sid cip now).1 = some r → r.client_ip = cip) := by
  cases h : dlookup sid s.sessions with
  | none =>
    rw [get_session_eq_absent s sid cip now h]
    simp [h]
  | some sess =>
    by_cases hc : sess.client_ip = cip
    · rw [get_session_eq_owner s sid cip now sess h hc]
      constructor
      · constructor
        · intro _
          exact ⟨sess, rfl, hc⟩
        · intro _
          simp
      · intro r hr
        injection hr with hr
        rw [← hr]
        exact hc
    · rw [get_session_eq_wrong_owner s sid cip now sess h hc]
      constructor
      · constructor
        · intro hne
          exact absurd rfl hne
        · rintro ⟨sess2, hs2, hc2⟩
          injection hs2 with he
          exact (hc (he.symm ▸ hc2)).elim
      · intro r hr
        cases hr

/-- Witness for C1 at a concrete store: the owner does get a record back. -/
theorem get_session_isolation_witness :
    (get_session demoStore "sid1" "alice" 5).1 ≠ none :=
  (get_session_isolation demoStore "sid1" "alice" 5).1.mpr
    ⟨demoRecord, by decide, by decide⟩

/-- C10: a failed `update_session` (absent session or non-owner requester)
leaves the store completely unchanged. -/
theorem update_session_failure_unchanged (s : Store) (sid cip : String)
    (updates : List FieldUpdate) (now : Int)
    (h : (update_session s sid cip updates now).1 = false) :
    (update_session s sid cip updates now).2 = s := by
  cases hl : dlookup sid s.sessions with
  | none =>
    unfold update_session
    rw [get_session_eq_absent s sid cip now hl]
  | some sess =>
    by_cases hc : sess.client_ip = cip
    · exfalso
      unfold update_session at h
      rw [get_session_eq_owner s sid cip now sess hl hc] at h
      simp at h
    · unfold update_session
      rw [get_session_eq_wrong_owner s sid cip now sess hl hc]

/-- Witness for C10: updating an absent session leaves the demo store as it
was. -/
theorem update_session_failure_unchanged_witness :
    (update_session demoStore "nosuch" "alice" [FieldUpdate.set_row_count 7] 5).2 = demoStore :=
  update_session_failure_unchanged demoStore "nosuch" "alice"
    [FieldUpdate.set_row_count 7] 5 (by decide)

/-! ## C2: the owning-client field -/

/-- Counterexample to C2 as stated: `update_session` copies every keyword
argument into the record, so the owner itself can pass `client_ip` and
the owning-client field set at creation is overwritten. -/
theorem update_can_change_owner :
    (update_session demoStore "sid1" "alice" [FieldUpdate.set_client_ip "mallory"] 5).1 = true ∧
    Option.map SessionData.client_ip
        (dlookup "sid1"
          (update_session demoStore "sid1" "alice" [FieldUpdate.set_client_ip "mallory"] 5).2.sessions)
      = some "mallory" ∧
    Option.map SessionData.client_ip (dlookup "sid1" demoStore.sessions) = some "alice" := by
  decide

/-- Every record of `s2.sessions` descends from a record of `s.sessions`
with the same session id and the same owning client. -/
def ownerPreserved (s s2 : Store) : Prop :=
  ∀ p ∈ s2.sessions, ∃ q ∈ s.sessions, q.1 = p.1 ∧ q.2.client_ip = p.2.client_ip

theorem applyUpdates_client_ip (us : List FieldUpdate) (x : SessionData)
    (h : ∀ v, FieldUpdate.set_client_ip v ∉ us) :
    (us.foldl applyUpdate x).client_ip = x.client_ip := by
  induction us generalizing x with
  | nil => rfl
  | cons u rest ih =>
    have hu : (applyUpdate x u).client_ip = x.client_ip := by
      cases u with
      | set_client_ip v => exact absurd (List.mem_cons_self _ _) (h v)
      | _ => rfl
    rw [List.foldl_cons, ih _ (fun v hm => h v (List.mem_cons_of_mem _ hm)), hu]

theorem mem_cleanupStep_sessions (st : Store) (e : String) (p : String × SessionData)
    (h : p ∈ (cleanupStep st e).sessions) : p ∈ st.sessions := by
  unfold cleanupStep at h
  cases hl : dlookup e st.sessions with
  | none => simpa [hl] using h
  | some sess =>
    simp only [hl] at h
    exact (dictErase_sublist e st.sessions).mem h

theorem mem_cleanup_fold_sessions (E : List String) (st : Store) (p : String × SessionData)
    (h : p ∈ (E.foldl cleanupStep st).sessions) : p ∈ st.sessions := by
  induction E generalizing st with
  | nil => exact h
  | cons e rest ih =>
    rw [List.foldl_cons] at h
    exact mem_cleanupStep_sessions st e p (ih (cleanupStep st e) h)

/-- C2 (amended): no later operation changes a record's owning-client
field, provided the `update_session` keyword arguments do not themselves
assign `client_ip` (the code copies every given key into the record, so
an explicit `client_ip=` keyword would overwrite it — see
`update_can_change_owner`).  `get_session`, `delete_session` and the
expiry sweep preserve the field unconditionally. -/
theorem owning_client_immutable (s : Store) (sid cip : String)
    (updates : List FieldUpdate) (now expiry : Int)
    (hupd : ∀ v, FieldUpdate.set_client_ip v ∉ updates) :
    ownerPreserved s (get_session s sid cip now).2 ∧
    ownerPreserved s (update_session s sid cip updates now).2 ∧
    ownerPreserved s (delete_session s sid cip now).2 ∧
    ownerPreserved s (cleanup_expired_sessions s expiry now) := by
  refine ⟨?_, ?_, ?_, ?_⟩
  · cases hl : dlookup sid s.sessions with
    | none =>
      rw [get_session_eq_absent s sid cip now hl]
      exact fun p hp => ⟨p, hp, rfl, rfl⟩
    | some sess =>
      by_cases hc : sess.client_ip = cip
      · rw [get_session_eq_owner s sid cip now sess hl hc]
        intro p hp
        rcases mem_dictInsert _ _ _ _ hp with h1 | h1
        · exact ⟨(sid, sess), dlookup_mem _ _ _ hl, by rw [h1], by rw [h1]⟩
        · exact ⟨p, h1, rfl, rfl⟩
      · rw [get_session_eq_wrong_owner s sid cip now sess hl hc]
        exact fun p hp => ⟨p, hp, rfl, rfl⟩
  · cases hl : dlookup sid s.sessions with
    | none =>
      unfold update_session
      rw [get_session_eq_absent s sid cip now hl]
      exact fun p hp => ⟨p, hp, rfl, rfl⟩
    | some sess =>
      by_cases hc : sess.client_ip = cip
      · unfold update_session
        rw [get_session_eq_owner s sid cip now sess hl hc]
        intro p hp
        rcases mem_dictInsert _ _ _ _ hp with h1 | h1
        · refine ⟨(sid, sess), dlookup_mem _ _ _ hl, by rw [h1], ?_⟩
          rw [h1]
          exact (applyUpdates_client_ip updates { sess with last_access_time := now } hupd).symm
        · rcases mem_dictInsert _ _ _ _ h1 with h2 | h2
          · exact ⟨(sid, sess), dlookup_mem _ _ _ hl, by rw [h2], by rw [h2]⟩
          · exact ⟨p, h2, rfl, rfl⟩
      · unfold update_session
        rw [get_session_eq_wrong_owner s sid cip now sess hl hc]
        exact fun p hp => ⟨p, hp, rfl, rfl⟩
  · cases hl : dlookup sid s.sessions with
    | none =>
      unfold delete_session
      rw [get_session_eq_absent s sid cip now hl]
      exact fun p hp => ⟨p, hp, rfl, rfl⟩
    | some sess =>
      by_cases hc : sess.client_ip = cip
      · unfold delete_session
        rw [get_session_eq_owner s sid cip now sess hl hc]
        intro p hp
        have hp2 := (dictErase_sublist sid _).mem hp
        rcases mem_dictInsert _ _ _ _ hp2 with h1 | h1
        · exact ⟨(sid, sess), dlookup_mem _ _ _ hl, by rw [h1], by rw [h1]⟩
        · exact ⟨p, h1, rfl, rfl⟩
      · unfold delete_session
        rw [get_session_eq_wrong_owner s sid cip now sess hl hc]
        exact fun p hp => ⟨p, hp, rfl, rfl⟩
  · intro p hp
    exact ⟨p, mem_cleanup_fold_sessions _ s p hp, rfl, rfl⟩

/-- Witness for C2 (amended) at a concrete store and update list. -/
theorem owning_client_immutable_witness :
    ownerPreserved demoStore
      (update_session demoStore "sid1" "alice" [FieldUpdate.set_row_count 7] 5).2 :=
  (owning_client_immutable demoStore "sid1" "alice" [FieldUpdate.set_row_count 7] 5 9
    (by intro v hv; simp at hv)).2.1

/-! ## C6: the expiry sweep -/

/-- The list of session ids the store's index holds for a client
(`self.client_sessions[client_ip]`, empty when the client is unknown). -/
def ownerIndex (st : Store) (cip : String) : List String :=
  (dlookup cip st.client_sessions).getD []

/-- Every per-client id list in the index is duplicate-free (always true
of stores built by the API, since ids are fresh random tokens). -/
def indexNodup (st : Store) : Prop :=
  ∀ p ∈ st.client_sessions, p.2.Nodup

theorem cleanupStep_eq_absent (st : Store) (e : String)
    (h : dlookup e st.sessions = none) : cleanupStep st e = st := by
  unfold cleanupStep
  rw [h]

theorem cleanupStep_eq_found (st : Store) (e : String) (sess : SessionData)
    (h : dlookup e st.sessions = some sess) :
    cleanupStep st e =
      { sessions := dictErase e st.sessions
        client_sessions :=
          match dlookup sess.client_ip st.client_sessions with
          | none => st.client_sessions
          | some l => dictInsert sess.client_ip (removeFirst e l) st.client_sessions } := by
  unfold cleanupStep
  rw [h]

theorem cleanupStep_keys_nodup (st : Store) (e : String)
    (hk : (st.sessions.map Prod.fst).Nodup) :
    ((cleanupStep st e).sessions.map Prod.fst).Nodup := by
  cases hl : dlookup e st.sessions with
  | none => rw [cleanupStep_eq_absent st e hl]; exact hk
  | some sess =>
    rw [cleanupStep_eq_found st e sess hl]
    exact hk.sublist ((dictErase_sublist e st.sessions).map Prod.fst)

theorem cleanupStep_dlookup (st : Store) (e x : String)
    (hk : (st.sessions.map Prod.fst).Nodup) :
    dlookup x (cleanupStep st e).sessions =
      if x = e then none else dlookup x st.sessions := by
  cases hl : dlookup e st.sessions with
  | none =>
    rw [cleanupStep_eq_absent st e hl]
    by_cases hx : x = e
    · simp [hx, hl]
    · simp [hx]
  | some sess =>
    rw [cleanupStep_eq_found st e sess hl]
    by_cases hx : x = e
    · subst hx
      simp [dlookup_dictErase_self x st.sessions hk]
    · simp [hx, dlookup_dictErase_ne e x st.sessions hx]

theorem cleanupStep_indexNodup (st : Store) (e : String)
    (h2 : indexNodup st) : indexNodup (cleanupStep st e) := by
  cases hl : dlookup e st.sessions with
  | none => rw [cleanupStep_eq_absent st e hl]; exact h2
  | some sess =>
    rw [cleanupStep_eq_found st e sess hl]
    cases hcs : dlookup sess.client_ip st.client_sessions with
    | none =>
      intro p hp
      exact h2 p hp
    | some l =>
      intro p hp
      rcases mem_dictInsert _ _ _ _ hp with h1 | h1
      · rw [h1]
        exact (h2 (sess.client_ip, l) (dlookup_mem _ _ _ hcs)).sublist
          (removeFirst_sublist e l)
      · exact h2 p h1

theorem cleanupStep_index_absent (st : Store) (e x cip : String)
    (h : x ∉ ownerIndex st cip) : x ∉ ownerIndex (cleanupStep st e) cip := by
  cases hl : dlookup e st.sessions with
  | none => rw [cleanupStep_eq_absent st e hl]; exact h
  | some sess =>
    rw [cleanupStep_eq_found st e sess hl]
    cases hcs : dlookup sess.client_ip st.client_sessions with
    | none => exact h
    | some l =>
      by_cases hcip : cip = sess.client_ip
      · subst hcip
        unfold ownerIndex at h ⊢
        rw [hcs] at h
        simp only [dlookup_dictInsert_self, Option.getD_some] at h ⊢
        intro hx
        exact h (mem_removeFirst_of_mem e x l hx)
      · unfold ownerIndex
        simp only [dlookup_dictInsert_ne _ _ _ _ hcip]
        exact h

theorem fold_index_absent (E : List String) (st : Store) (x cip : String)
    (h : x ∉ ownerIndex st cip) :
    x ∉ ownerIndex (E.foldl cleanupStep st) cip := by
  induction E generalizing st with
  | nil => exact h
  | cons e rest ih =>
    rw [List.foldl_cons]
    exact ih (cleanupStep st e) (cleanupStep_index_absent st e x cip h)

theorem cleanupStep_removes_own (st : Store) (sid : String) (sess : SessionData)
    (h2 : indexNodup st) (hl : dlookup sid st.sessions = some sess) :
    sid ∉ ownerIndex (cleanupStep st sid) sess.client_ip := by
  rw [cleanupStep_eq_found st sid sess hl]
  cases hcs : dlookup sess.client_ip st.client_sessions with
  | none =>
    unfold ownerIndex
    simp [hcs]
  | some l =>
    unfold ownerIndex
    simp only [dlookup_dictInsert_self, Option.getD_some]
    exact not_mem_removeFirst sid l (h2 (sess.client_ip, l) (dlookup_mem _ _ _ hcs))

theorem fold_cleanup_removes (E : List String) (st : Store) (hE : E.Nodup)
    (hk : (st.sessions.map Prod.fst).Nodup) (h2 : indexNodup st)
    (sid : String) (sess : SessionData) (hsid : sid ∈ E)
    (hl : dlookup sid st.sessions = some sess) :
    sid ∉ ownerIndex (E.foldl cleanupStep st) sess.client_ip := by
  induction E generalizing st with
  | nil => cases hsid
  | cons e rest ih =>
    rw [List.nodup_cons] at hE
    rw [List.foldl_cons]
    rcases List.mem_cons.mp hsid with h1 | h1
    · subst h1
      exact fold_index_absent rest (cleanupStep st sid) sid sess.client_ip
        (cleanupStep_removes_own st sid sess h2 hl)
    · have hne : sid ≠ e := fun t => hE.1 (t ▸ h1)
      refine ih (cleanupStep st e) hE.2 (cleanupStep_keys_nodup st e hk)
        (cleanupStep_indexNodup st e h2) h1 ?_
      rw [cleanupStep_dlookup st e sid hk, if_neg hne]
      exact hl

theorem fold_cleanup_dlookup (E : List String) (st : Store)
    (hk : (st.sessions.map Prod.fst).Nodup) (x : String) :
    dlookup x (E.foldl cleanupStep st).sessions =
      if x ∈ E then none else dlookup x st.sessions := by
  induction E generalizing st with
  | nil => simp
  | cons e rest ih =>
    rw [List.foldl_cons, ih (cleanupStep st e) (cleanupStep_keys_nodup st e hk),
      cleanupStep_dlookup st e x hk]
    by_cases h1 : x ∈ rest
    · simp [h1]
    · by_cases h2 : x = e
      · simp [h1, h2]
      · simp [h1, h2]

/-- C6: one sweep removes every session whose `last_access_time` lies
strictly more than `expiry_seconds` before `now`, both from the session
table and from its owner's index, and leaves every more recently
accessed session in the table with its record unchanged.  (The store is
assumed well-formed: no duplicate session-table keys and duplicate-free
per-client index lists, which holds of every store the API builds.) -/
theorem cleanup_expired_spec (s : Store) (expiry_seconds now : Int)
    (hk : (s.sessions.map Prod.fst).Nodup) (h2 : indexNodup s)
    (sid : String) (sess : SessionData)
    (hs : dlookup sid s.sessions = some sess) :
    (isExpired now expiry_seconds sess = true →
        dlookup sid (cleanup_expired_sessions s expiry_seconds now).sessions = none ∧
        sid ∉ ownerIndex (cleanup_expired_sessions s expiry_seconds now) sess.client_ip) ∧
    (isExpired now expiry_seconds sess = false →
        dlookup sid (cleanup_expired_sessions s expiry_seconds now).sessions = some sess) := by
  have hmem : (sid, sess) ∈ s.sessions := dlookup_mem _ _ _ hs
  have hceq : cleanup_expired_sessions s expiry_seconds now =
      ((s.sessions.filter (fun p => isExpired now expiry_seconds p.2)).map
        (fun p => p.1)).foldl cleanupStep s := rfl
  have hE : ((s.sessions.filter (fun p => isExpired now expiry_seconds p.2)).map
      (fun p => p.1)).Nodup := by
    have hsub := (List.filter_sublist
      (l := s.sessions) (p := fun p => isExpired now expiry_seconds p.2)).map (fun p => p.1)
    exact hk.sublist hsub
  constructor
  · intro hexp
    have hsidE : sid ∈ (s.sessions.filter
        (fun p => isExpired now expiry_seconds p.2)).map (fun p => p.1) :=
      List.mem_map.mpr ⟨(sid, sess), List.mem_filter.mpr ⟨hmem, hexp⟩, rfl⟩
    constructor
    · rw [hceq, fold_cleanup_dlookup _ s hk sid, if_pos hsidE]
    · rw [hceq]
      exact fold_cleanup_removes _ s hE hk h2 sid sess hsidE hs
  · intro hexp
    have hsidE : sid ∉ (s.sessions.filter
        (fun p => isExpired now expiry_seconds p.2)).map (fun p => p.1) := by
      intro hin
      rcases List.mem_map.mp hin with ⟨p, hp, hp1⟩
      rcases List.mem_filter.mp hp with ⟨hpmem, hpexp⟩
      have : dlookup sid s.sessions = some p.2 := by
        rw [← hp1]
        exact nodup_mem_dlookup p.1 p.2 s.sessions hk hpmem
      rw [hs] at this
      injection this with he
      rw [he] at hexp
      rw [hexp] at hpexp
      cases hpexp
    rw [hceq, fold_cleanup_dlookup _ s hk sid, if_neg hsidE]
    exact hs

/-- Witness for C6: in a two-session store, the stale session is gone from
the table and from the owner's index after one sweep, and the fresh one
survives unchanged. -/
theorem cleanup_expired_spec_witness :
    (dlookup "old" (cleanup_expired_sessions
        { sessions := [("old", { demoRecord with session_id := "old" }),
                       ("sid1", { demoRecord with last_access_time := 50 })]
          client_sessions := [("alice", ["old", "sid1"])] } 60 100).sessions = none ∧
      "old" ∉ ownerIndex (cleanup_expired_sessions
        { sessions := [("old", { demoRecord with session_id := "old" }),
                       ("sid1", { demoRecord with last_access_time := 50 })]
          client_sessions := [("alice", ["old", "sid1"])] } 60 100) "alice") ∧
    dlookup "sid1" (cleanup_expired_sessions
        { sessions := [("old", { demoRecord with session_id := "old" }),
                       ("sid1", { demoRecord with last_access_time := 50 })]
          client_sessions := [("alice", ["old", "sid1"])] } 60 100).sessions =
      some { demoRecord with last_access_time := 50 } := by
  have hidx : indexNodup
      { sessions := [("old", { demoRecord with session_id := "old" }),
                     ("sid1", { demoRecord with last_access_time := 50 })]
        client_sessions := [("alice", ["old", "sid1"])] } := by
    intro p hp
    obtain rfl := List.mem_singleton.mp hp
    decide
  constructor
  · exact (cleanup_expired_spec _ 60 100 (by decide) hidx "old"
      { demoRecord with session_id := "old" } (by decide)).1 (by decide)
  · exact (cleanup_expired_spec _ 60 100 (by decide) hidx "sid1"
      { demoRecord with last_access_time := 50 } (by decide)).2 (by decide)

/-! ## Encoding-resolution claims (C5, C7) -/

theorem tryEncodings_eq_none (readCsv : String → Bool → Except String DataFrame)
    (L : List String) (h : ∀ enc ∈ L, ∀ df, readCsv enc false ≠ .ok df) :
    tryEncodings readCsv L = none := by
  induction L with
  | nil => rfl
  | cons enc rest ih =>
    unfold tryEncodings
    cases hc : readCsv enc false with
    | ok df => exact absurd hc (h enc (List.mem_cons_self _ _) df)
    | error e => exact ih (fun e2 he2 df => h e2 (List.mem_cons_of_mem _ he2) df)

/-- C7: an explicitly supplied encoding is used verbatim — on success it is
the reported encoding, and on failure the call surfaces a read error at
once, with no fallback to detection or to the candidate list (the
conclusion holds for every oracle, however the other encodings would
behave). -/
theorem explicit_encoding_verbatim (io : CsvOracle) (enc : String) :
    (∀ df, io.readCsv enc false = .ok df →
      parse_csv_with_encoding io (some enc) = .ok (df, enc)) ∧
    (∀ e, io.readCsv enc false = .error e →
      parse_csv_with_encoding io (some enc) =
        .error ("Failed to parse with specified encoding " ++ enc ++ ": " ++ e)) := by
  constructor
  · intro df h
    simp only [parse_csv_with_encoding]
    rw [h]
  · intro e h
    simp only [parse_csv_with_encoding]
    rw [h]

/-- An oracle that fails exactly on the non-lossy utf-16 read and would
succeed everywhere else. -/
def utf16FailOracle : CsvOracle :=
  { readCsv := fun enc lossy =>
      if enc = "utf-16" && !lossy then .error "bad bytes"
      else .ok { columns := ["a"], nrows := 1 }
    readNRows := fun _ n => .ok { columns := ["a"], nrows := n }
    readChunked := fun _ _ => .ok []
    readExcel := .ok { columns := ["a"], nrows := 1 }
    detectedEncoding := "utf-8"
    detectedConfidence := 9 / 10
    estimatedRows := 1 }

/-- Witness for C7: requesting utf-16 explicitly fails hard even though
every other encoding would have parsed. -/
theorem explicit_encoding_verbatim_witness :
    parse_csv_with_encoding utf16FailOracle (some "utf-16") =
      .error ("Failed to parse with specified encoding " ++ "utf-16" ++ ": " ++ "bad bytes") :=
  (explicit_encoding_verbatim utf16FailOracle "utf-16").2 "bad bytes" rfl

/-- C5: when the detected encoding and all five fallback candidates fail,
one final lossy utf-8 attempt decides the call: its success is returned
(reported as utf-8), and only its failure makes the call fail. -/
theorem lossy_utf8_fallback (io : CsvOracle)
    (hdet : ∀ df, io.readCsv io.detectedEncoding false ≠ .ok df)
    (hcommon : ∀ enc ∈ common_encodings, ∀ df, io.readCsv enc false ≠ .ok df) :
    (∀ df, io.readCsv "utf-8" true = .ok df →
      parse_csv_with_encoding io none = .ok (df, "utf-8")) ∧
    (∀ e, io.readCsv "utf-8" true = .error e →
      parse_csv_with_encoding io none =
        .error ("Failed to parse CSV with any encoding. Last error: " ++ e)) := by
  have hft : (if io.detectedConfidence > (7 : Rat) / 10 then
      match io.readCsv io.detectedEncoding false with
      | .ok df => some (df, io.detectedEncoding)
      | .error _ => none
    else none) = (none : Option (DataFrame × String)) := by
    by_cases hc : io.detectedConfidence > (7 : Rat) / 10
    · rw [if_pos hc]
      cases hd : io.readCsv io.detectedEncoding false with
      | ok df => exact absurd hd (hdet df)
      | error e => rfl
    · rw [if_neg hc]
  have hte := tryEncodings_eq_none io.readCsv common_encodings hcommon
  constructor
  · intro df h
    simp only [parse_csv_with_encoding]
    rw [hft, hte, h]
  · intro e h
    simp only [parse_csv_with_encoding]
    rw [hft, hte, h]

/-- An oracle on which every strict decode fails and only lossy utf-8
succeeds. -/
def lossyOnlyOracle : CsvOracle :=
  { readCsv := fun _ lossy =>
      if lossy then .ok { columns := ["a"], nrows := 2 } else .error "undecodable"
    readNRows := fun _ n => .ok { columns := ["a"], nrows := n }
    readChunked := fun _ _ => .ok []
    readExcel := .ok { columns := ["a"], nrows := 1 }
    detectedEncoding := "koi8-r"
    detectedConfidence := 99 / 100
    estimatedRows := 2 }

/-- Witness for C5: with every strict decode failing, the lossy utf-8
attempt decides the call and succeeds. -/
theorem lossy_utf8_fallback_witness :
    parse_csv_with_encoding lossyOnlyOracle none =
      .ok ({ columns := ["a"], nrows := 2 }, "utf-8") :=
  (lossy_utf8_fallback lossyOnlyOracle
    (fun df h => by simp [lossyOnlyOracle] at h)
    (fun enc _ df h => by simp [lossyOnlyOracle] at h)).1
    { columns := ["a"], nrows := 2 } rfl

/-! ## C3: placeholder headers -/

/-- An oracle whose CSV parse yields a table whose first header is the
pandas placeholder "Unnamed: 0" (what `pd.read_csv` produces for a file
whose header row starts with an empty cell). -/
def unnamedHeaderOracle : CsvOracle :=
  { readCsv := fun _ _ => .ok { columns := ["Unnamed: 0", "value"], nrows := 3 }
    readNRows := fun _ n => .ok { columns := ["Unnamed: 0", "value"], nrows := n }
    readChunked := fun _ _ => .ok []
    readExcel := .ok { columns := ["Unnamed: 0", "value"], nrows := 3 }
    detectedEncoding := "utf-8"
    detectedConfidence := 1
    estimatedRows := 3 }

/-- C3 evaluated on the failing input: a CSV parsed to a column named
"Unnamed: 0" passes `validate_dataframe` and `parse_file_contents`
returns a successful ingestion result — the header guard compares
against the lowercase literal "unnamed", which pandas placeholder
headers (capital U) never match, though the lowercase spelling would be
rejected. -/
theorem unnamed_header_ingestion_succeeds :
    parse_file_contents unnamedHeaderOracle "data.csv" (some "utf-8") =
      .ok ({ columns := ["Unnamed: 0", "value"], nrows := 3 }, "CSV") ∧
    validate_dataframe (some { columns := ["Unnamed: 0", "value"], nrows := 3 }) = .ok () ∧
    validate_dataframe (some { columns := ["unnamed: 0", "value"], nrows := 3 }) =
      .error "File Appears to have missing or invalid headers." := by
  refine ⟨?_, ?_, ?_⟩ <;> rfl

/-! ## C4: the chunk cap -/

/-- The chunk loop keeps the chunks of a prefix of the stream: it stops
after the append that makes the list longer than 100, so it retains up
to 101 chunks, not 100. -/
theorem collectChunks_eq_take (l : List DataFrame) (acc : List DataFrame)
    (h : acc.length ≤ 100) :
    collectChunks acc l = acc ++ l.take (101 - acc.length) := by
  induction l generalizing acc with
  | nil => simp [collectChunks]
  | cons c rest ih =>
    unfold collectChunks
    by_cases hlen : acc.length = 100
    · have h101 : (acc ++ [c]).length > 100 := by simp [hlen]
      rw [if_pos h101]
      have : 101 - acc.length = 1 := by omega
      simp [this]
    · have hlt : acc.length < 100 := lt_of_le_of_ne h hlen
      have h101 : ¬(acc ++ [c]).length > 100 := by simp; omega
      rw [if_neg h101]
      rw [ih (acc ++ [c]) (by simp; omega)]
      have htake : 101 - acc.length = (101 - (acc ++ [c]).length) + 1 := by simp; omega
      rw [htake]
      simp [List.take_succ_cons]

/-- An oracle whose chunked reader yields 102 one-row chunks at
`chunk_size = 1` (a 102-row file). -/
def manyChunksOracle : CsvOracle :=
  { readCsv := fun _ _ => .error "unused"
    readNRows := fun _ _ => .error "unused"
    readChunked := fun _ _ => .ok (List.replicate 102 { columns := ["a"], nrows := 1 })
    readExcel := .error "unused"
    detectedEncoding := "utf-8"
    detectedConfidence := 1
    estimatedRows := 102 }

/-- C4 evaluated at the failing input: with `chunk_size = 1` and 102
chunks available, the chunked read returns 101 rows — 101 chunks of
`chunk_size` rows, one more than the claimed hard ceiling of
`100 × chunk_size`, because the loop appends before testing
`len(chunks) > 100`. -/
theorem read_csv_in_chunks_cap :
    read_csv_in_chunks manyChunksOracle 1 "utf-8" =
      .ok { columns := ["a"], nrows := 101 } ∧
    (collectChunks [] (List.replicate 102 { columns := ["a"], nrows := 1 })).length = 101 ∧
    101 > 100 * 1 := by
  refine ⟨?_, ?_, ?_⟩
  · rfl
  · rfl
  · decide

/-! ## C8, C9: chunking and sampling decisions -/

theorem parse_large_csv_unsampled (io : CsvOracle) (cs : Nat) (encoding : Option String) :
    parse_large_csv io cs none encoding =
      if io.estimatedRows ≤ cs then
        match parse_csv_with_encoding io (some (effEncoding io encoding)) with
        | .ok (df, detected) =>
          .ok (df, "CSV",
            [("encoding", .str detected), ("total_rows", .nat io.estimatedRows),
             ("is_chunked", .bool false)])
        | .error e => .error ("Failed to parse large CSV: " ++ e)
      else
        match read_csv_in_chunks io cs (effEncoding io encoding) with
        | .ok df =>
          .ok (df, "CSV",
            [("encoding", .str (effEncoding io encoding)), ("total_rows", .nat io.estimatedRows),
             ("is_chunked", .bool true), ("chunk_size", .nat cs)])
        | .error e => .error ("Failed to parse large CSV: " ++ e) := by
  unfold parse_large_csv
  rw [if_neg (by simp [sampleTruthy])]

theorem parse_large_csv_sampled (io : CsvOracle) (cs N : Nat) (hN : N ≠ 0)
    (encoding : Option String) :
    parse_large_csv io cs (some N) encoding =
      match io.readNRows (effEncoding io encoding) N with
      | .ok df =>
        .ok (df, "CSV",
          [("encoding", .str (effEncoding io encoding)), ("total_rows", .nat df.nrows),
           ("is_sampled", .bool true), ("sample_size", .nat N)])
      | .error e => .error ("Failed to sample CSV: " ++ e) := by
  unfold parse_large_csv
  rw [if_pos (by simp [sampleTruthy, hN])]
  rfl

/-- C8: with sampling off, the cheap row estimate decides the read path —
an estimate within `chunk_size` gives a one-pass parse reported as
`is_chunked=false`, a larger estimate gives a chunked read reported as
`is_chunked=true` together with the `chunk_size` used. -/
theorem chunking_decision (io : CsvOracle) (filename : String) (chunk_size : Nat)
    (encoding : Option String) (hfn : isCsvName filename = true) :
    (io.estimatedRows ≤ chunk_size →
      ∀ df ft md, parse_large_file io filename chunk_size none encoding = .ok (df, ft, md) →
        dlookup "is_chunked" md = some (.bool false) ∧
        io.readCsv (effEncoding io encoding) false = .ok df) ∧
    (chunk_size < io.estimatedRows →
      ∀ df ft md, parse_large_file io filename chunk_size none encoding = .ok (df, ft, md) →
        dlookup "is_chunked" md = some (.bool true) ∧
        dlookup "chunk_size" md = some (.nat chunk_size) ∧
        read_csv_in_chunks io chunk_size (effEncoding io encoding) = .ok df) := by
  constructor
  · intro hle df ft md hres
    cases hr : io.readCsv (effEncoding io encoding) false with
    | ok d =>
      have hp : parse_csv_with_encoding io (some (effEncoding io encoding)) =
          .ok (d, effEncoding io encoding) := by
        simp only [parse_csv_with_encoding]
        rw [hr]
      have hcsv : parse_large_csv io chunk_size none encoding =
          .ok (d, "CSV",
            [("encoding", .str (effEncoding io encoding)),
             ("total_rows", .nat io.estimatedRows), ("is_chunked", .bool false)]) := by
        rw [parse_large_csv_unsampled io chunk_size encoding, if_pos hle, hp]
      unfold parse_large_file at hres
      rw [if_pos hfn, hcsv] at hres
      injection hres with h1
      simp only [Prod.mk.injEq] at h1
      obtain ⟨hdf, _, hmd⟩ := h1
      constructor
      · rw [← hmd]
        rfl
      · rw [hdf]
    | error e =>
      exfalso
      have hp : parse_csv_with_encoding io (some (effEncoding io encoding)) =
          .error ("Failed to parse with specified encoding " ++ effEncoding io encoding
            ++ ": " ++ e) := by
        simp only [parse_csv_with_encoding]
        rw [hr]
      have hcsv : parse_large_csv io chunk_size none encoding =
          .error ("Failed to parse large CSV: "
            ++ ("Failed to parse with specified encoding " ++ effEncoding io encoding
              ++ ": " ++ e)) := by
        rw [parse_large_csv_unsampled io chunk_size encoding, if_pos hle, hp]
      unfold parse_large_file at hres
      rw [if_pos hfn, hcsv] at hres
      cases hres
  · intro hgt df ft md hres
    have hnle : ¬io.estimatedRows ≤ chunk_size := by omega
    cases hr : read_csv_in_chunks io chunk_size (effEncoding io encoding) with
    | ok d =>
      have hcsv : parse_large_csv io chunk_size none encoding =
          .ok (d, "CSV",
            [("encoding", .str (effEncoding io encoding)),
             ("total_rows", .nat io.estimatedRows), ("is_chunked", .bool true),
             ("chunk_size", .nat chunk_size)]) := by
        rw [parse_large_csv_unsampled io chunk_size encoding, if_neg hnle, hr]
      unfold parse_large_file at hres
      rw [if_pos hfn, hcsv] at hres
      injection hres with h1
      simp only [Prod.mk.injEq] at h1
      obtain ⟨hdf, _, hmd⟩ := h1
      refine ⟨?_, ?_, ?_⟩
      · rw [← hmd]
        rfl
      · rw [← hmd]
        rfl
      · rw [hdf]
    | error e =>
      exfalso
      have hcsv : parse_large_csv io chunk_size none encoding =
          .error ("Failed to parse large CSV: " ++ e) := by
        rw [parse_large_csv_unsampled io chunk_size encoding, if_neg hnle, hr]
      unfold parse_large_file at hres
      rw [if_pos hfn, hcsv] at hres
      cases hres

/-- An oracle describing a small, well-behaved CSV (3 estimated rows). -/
def smallCsvOracle : CsvOracle :=
  { readCsv := fun _ _ => .ok { columns := ["a"], nrows := 3 }
    readNRows := fun _ n => .ok { columns := ["a"], nrows := n }
    readChunked := fun _ _ => .ok [{ columns := ["a"], nrows := 3 }]
    readExcel := .error "unused"
    detectedEncoding := "utf-8"
    detectedConfidence := 1
    estimatedRows := 3 }

/-- Witness for C8: a 3-row estimate at `chunk_size = 10` takes the
one-pass path and reports `is_chunked=false`. -/
theorem chunking_decision_witness :
    dlookup "is_chunked"
      [("chunk_size", MValue.nat 10), ("sample_rows", MValue.pynone),
       ("is_sampled", MValue.bool false), ("encoding", MValue.str "utf-8"),
       ("total_rows", MValue.nat 3), ("is_chunked", MValue.bool false)] =
      some (MValue.bool false) ∧
    smallCsvOracle.readCsv (effEncoding smallCsvOracle (some "utf-8")) false =
      .ok { columns := ["a"], nrows := 3 } :=
  (chunking_decision smallCsvOracle "t.csv" 10 (some "utf-8") (by decide)).1
    (by decide) { columns := ["a"], nrows := 3 } "CSV" _ rfl

/-- C9 (amended): for every positive `sample_rows = N`, only the first `N`
rows are read, the chunking decision is skipped entirely (no
`is_chunked` key is ever produced), and the metadata reports
`is_sampled=true` and `sample_size=N`. -/
theorem sample_rows_positive_spec (io : CsvOracle) (filename : String)
    (chunk_size : Nat) (encoding : Option String) (N : Nat)
    (hN : 0 < N) (hfn : isCsvName filename = true) :
    ∀ df ft md, parse_large_file io filename chunk_size (some N) encoding = .ok (df, ft, md) →
      io.readNRows (effEncoding io encoding) N = .ok df ∧
      dlookup "is_sampled" md = some (.bool true) ∧
      dlookup "sample_size" md = some (.nat N) ∧
      dlookup "is_chunked" md = none := by
  intro df ft md hres
  cases hr : io.readNRows (effEncoding io encoding) N with
  | ok d =>
    have hcsv : parse_large_csv io chunk_size (some N) encoding =
        .ok (d, "CSV",
          [("encoding", .str (effEncoding io encoding)), ("total_rows", .nat d.nrows),
           ("is_sampled", .bool true), ("sample_size", .nat N)]) := by
      rw [parse_large_csv_sampled io chunk_size N (Nat.pos_iff_ne_zero.mp hN) encoding, hr]
    unfold parse_large_file at hres
    rw [if_pos hfn, hcsv] at hres
    injection hres with h1
    simp only [Prod.mk.injEq] at h1
    obtain ⟨hdf, _, hmd⟩ := h1
    refine ⟨by rw [hdf], ?_, ?_, ?_⟩
    · rw [← hmd]
      rfl
    · rw [← hmd]
      rfl
    · rw [← hmd]
      rfl
  | error e =>
    exfalso
    have hcsv : parse_large_csv io chunk_size (some N) encoding =
        .error ("Failed to sample CSV: " ++ e) := by
      rw [parse_large_csv_sampled io chunk_size N (Nat.pos_iff_ne_zero.mp hN) encoding, hr]
    unfold parse_large_file at hres
    rw [if_pos hfn, hcsv] at hres
    cases hres

/-- Witness for C9 (amended): sampling 2 rows of the small CSV reports
`is_sampled=true, sample_size=2` and no `is_chunked` key. -/
theorem sample_rows_positive_spec_witness :
    smallCsvOracle.readNRows (effEncoding smallCsvOracle (some "utf-8")) 2 =
      .ok { columns := ["a"], nrows := 2 } ∧
    dlookup "is_sampled"
      [("chunk_size", MValue.nat 10), ("sample_rows", MValue.nat 2),
       ("is_sampled", MValue.bool true), ("encoding", MValue.str "utf-8"),
       ("total_rows", MValue.nat 2), ("sample_size", MValue.nat 2)] =
      some (MValue.bool true) ∧
    dlookup "sample_size"
      [("chunk_size", MValue.nat 10), ("sample_rows", MValue.nat 2),
       ("is_sampled", MValue.bool true), ("encoding", MValue.str "utf-8"),
       ("total_rows", MValue.nat 2), ("sample_size", MValue.nat 2)] =
      some (MValue.nat 2) ∧
    dlookup "is_chunked"
      [("chunk_size", MValue.nat 10), ("sample_rows", MValue.nat 2),
       ("is_sampled", MValue.bool true), ("encoding", MValue.str "utf-8"),
       ("total_rows", MValue.nat 2), ("sample_size", MValue.nat 2)] =
      none :=
  sample_rows_positive_spec smallCsvOracle "t.csv" 10 (some "utf-8") 2
    (by decide) (by decide) { columns := ["a"], nrows := 2 } "CSV" _ rfl

/-- Counterexample to C9 as stated: setting `sample_rows = 0` is not
short-circuited — Python truthiness treats 0 like "unset", so the
chunking decision runs (the metadata carries an `is_chunked` key and no
`sample_size`), while the outer metadata still reports
`is_sampled=true`. -/
theorem sample_zero_not_short_circuited :
    parse_large_file smallCsvOracle "t.csv" 10 (some 0) (some "utf-8") =
      .ok ({ columns := ["a"], nrows := 3 }, "CSV",
        [("chunk_size", MValue.nat 10), ("sample_rows", MValue.nat 0),
         ("is_sampled", MValue.bool true), ("encoding", MValue.str "utf-8"),
         ("total_rows", MValue.nat 3), ("is_chunked", MValue.bool false)]) ∧
    dlookup "sample_size"
      [("chunk_size", MValue.nat 10), ("sample_rows", MValue.nat 0),
       ("is_sampled", MValue.bool true), ("encoding", MValue.str "utf-8"),
       ("total_rows", MValue.nat 3), ("is_chunked", MValue.bool false)] = none ∧
    dlookup "is_chunked"
      [("chunk_size", MValue.nat 10), ("sample_rows", MValue.nat 0),
       ("is_sampled", MValue.bool true), ("encoding", MValue.str "utf-8"),
       ("total_rows", MValue.nat 3), ("is_chunked", MValue.bool false)] =
      some (MValue.bool false) := by
  refine ⟨?_, ?_, ?_⟩ <;> rfl

end DataSummary
